import Mathlib

/-!
# ToDD agent tasks: `ExecuteTestRunTask.Run` and `DownloadAsset.Run`

A shallow embedding of `agent/tasks/executetestrun.go` and
`agent/tasks/downloadasset.go`.

Everything the two tasks obtain from outside (the agent cache, `os.Stat`, the
child processes, `json.Marshal`, `http.Get`, `os.OpenFile`, `filepath.Join`)
is a field of a world record, so that each task is an executable function of
its inputs and of the world it runs in.
-/

namespace Todd

/-! ## Go maps with string keys -/

/-- A Go `map[string]β`, kept as its entries in order of first insertion.
Keys are pairwise distinct in every map built from `GoMap.empty` by
`GoMap.assign`. -/
structure GoMap (β : Type) where
  entries : List (String × β)
deriving DecidableEq, Repr

namespace GoMap

variable {β : Type}

/-- The map literal `map[string]β{}`. -/
def empty : GoMap β := ⟨[]⟩

/-- Entries after `m[k] = v` on the entry list. -/
def assignEntries (k : String) (v : β) : List (String × β) → List (String × β)
  | [] => [(k, v)]
  | e :: rest => if e.1 = k then (k, v) :: rest else e :: assignEntries k v rest

/-- The statement `m[k] = v`. -/
def assign (m : GoMap β) (k : String) (v : β) : GoMap β := ⟨assignEntries k v m.entries⟩

/-- Lookup on the entry list. -/
def lookupEntries (k : String) : List (String × β) → Option β
  | [] => none
  | e :: rest => if e.1 = k then some e.2 else lookupEntries k rest

/-- The lookup `v, ok := m[k]`. -/
def lookup (m : GoMap β) (k : String) : Option β := lookupEntries k m.entries

/-- The keys of the map. -/
def keys (m : GoMap β) : List String := m.entries.map Prod.fst

/-- The builtin `len(m)`. -/
def len (m : GoMap β) : Nat := m.entries.length

/-- A sequence of assignments, performed left to right. -/
def assignAll (m : GoMap β) (writes : List (String × β)) : GoMap β :=
  writes.foldl (fun acc kv => acc.assign kv.1 kv.2) m

end GoMap

/-! ## `ExecuteTestRunTask` -/

/-- The fields of `defs.TestRun` that `Run` reads. -/
structure TestRun where
  Testlet : String
  Targets : List String
  Args : String
deriving DecidableEq, Repr

/-- The task message. `OptDir` is `Config.LocalResources.OptDir`. -/
structure ExecuteTestRunTask where
  OptDir : String
  TestUuid : String
  TimeLimit : Int
deriving DecidableEq, Repr

/-- What the operating system makes of one `exec.Cmd` built by a worker. Times
are nanoseconds counted from the moment the worker enters its `select`. -/
inductive Invocation where
  /-- The call `cmd.Start()` returned an error, so `cmd.Process` is nil and nothing is
  ever written to the stdout buffer; `cmd.Wait()` answers "exec: not started"
  and that answer is ready to be received on `done` at time `delay`. -/
  | notStarted (startErr : String) (delay : Nat)
  /-- The call `cmd.Start()` succeeded. `exit` is `none` when the process is still
  running at every time, otherwise the time at which the result of
  `cmd.Wait()` is ready on `done` together with that result (`none` for nil).
  `captured` is what `cmdOutput.Bytes()` holds when the worker reads it,
  `killErr` what `cmd.Process.Kill()` returns if it is called. -/
  | started (exit : Option (Nat × Option String)) (captured : String)
      (killErr : Option String)
deriving DecidableEq, Repr

namespace Invocation

/-- When the value sent on `done` is ready, and the value (`cmd.Wait()`). -/
def wait : Invocation → Option (Nat × Option String)
  | notStarted _ delay => some (delay, some "exec: not started")
  | started exit _ _ => exit

/-- The value of `string(cmdOutput.Bytes())` at the record step. -/
def cmdOutput : Invocation → String
  | notStarted _ _ => ""
  | started _ captured _ => captured

/-- The call `cmd.Process.Kill()`: `none` when `cmd.Process` is nil (the call
dereferences a nil pointer), otherwise the error it returns. -/
def processKill : Invocation → Option (Option String)
  | notStarted _ _ => none
  | started _ _ killErr => some killErr

end Invocation

/-- Error of `os.Stat`, as far as `os.IsNotExist` tells them apart. -/
inductive StatError where
  /-- The error ENOENT: nothing is at the path; `os.IsNotExist` holds of it. -/
  | notExist
  /-- The error ENOTDIR: a directory named in the path is not a directory, so
  nothing is at the path either; `os.IsNotExist` does not hold of it. -/
  | notDir
  /-- Any other error (permission and the like); `os.IsNotExist` does not hold
  of it. -/
  | other (msg : String)
deriving DecidableEq, Repr

/-- The surroundings of one call of `ExecuteTestRunTask.Run`. -/
structure World where
  /-- The cache read `ac.GetTestRun(uuid)`. -/
  GetTestRun : String → Except String TestRun
  /-- The helper `testing.IsNativeTestlet(name)`. -/
  IsNativeTestlet : String → Bool × String
  /-- The error of `os.Stat(path)`, `none` when it succeeds. -/
  Stat : String → Option StatError
  /-- The invocation worker `i` gets from `exec.Command(path, target, args)`. -/
  exec : Nat → String → String → String → Invocation
  /-- Which case the `select` of worker `i` takes when both are ready at once. -/
  timerOnTie : Nat → Bool
  /-- Rank of worker `i` in the order in which the workers complete. -/
  finishRank : Nat → Nat
  /-- Whether the runtime catches an assignment of worker `i` to `gatheredData`
  while another goroutine is assigning to it ("fatal error: concurrent map
  writes"); the map has no lock. -/
  writeFaults : Nat → Bool
  /-- The encoder `json.Marshal(gatheredData)`. -/
  Marshal : GoMap String → Except String String
  /-- The error of `ac.UpdateTestRunData(uuid, data)`, `none` for nil. -/
  UpdateTestRunData : String → String → Option String

/-- Conversion to `int64` with wrap-around. -/
def wrapInt64 (x : Int) : Int := (x + 2 ^ 63) % 2 ^ 64 - 2 ^ 63

/-- Nanoseconds after which the channel of
`time.After(time.Duration(ett.TimeLimit) * time.Second)` delivers; a
duration that is not positive delivers at once. -/
def timerNs (TimeLimit : Int) : Nat := (wrapInt64 (wrapInt64 TimeLimit * 1000000000)).toNat

/-- The case a worker's `select` takes. -/
inductive SelectCase where
  | timeLimit
  | done (err : Option String)
deriving DecidableEq, Repr

/-- The `select` over `time.After(..)` and `done`: the channel that is ready
first is received from; when both become ready together the choice is the
runtime's (`tie`). -/
def selectCase (timer : Nat) (tie : Bool) : Option (Nat × Option String) → SelectCase
  | none => .timeLimit
  | some (d, err) =>
    if d < timer then .done err
    else if timer < d then .timeLimit
    else if tie then .timeLimit else .done err

/-- How a worker goroutine ends. -/
inductive WorkerEnd where
  /-- The goroutine ran to its end: whether it called `cmd.Process.Kill()`, and
  its assignments to `gatheredData`, in program order. -/
  | finished (killIssued : Bool) (writes : List (String × String))
  /-- The goroutine panicked on `cmd.Process.Kill()` with `cmd.Process` nil. -/
  | nilDeref
  /-- The runtime caught an assignment of the goroutine to `gatheredData`
  colliding with another goroutine's and threw "fatal error: concurrent map
  writes"; whether the goroutine had called `cmd.Process.Kill()`. -/
  | mapFault (killIssued : Bool)
deriving DecidableEq, Repr

namespace WorkerEnd

/-- Whether the goroutine brought the process down instead of running to its
end: the panic on the nil process, or the runtime's fault on colliding map
writes. -/
def isPanic : WorkerEnd → Bool
  | finished _ _ => false
  | nilDeref => true
  | mapFault _ => true

/-- Whether the goroutine panicked on the nil process. -/
def isNilDeref : WorkerEnd → Bool
  | nilDeref => true
  | _ => false

/-- The assignments the goroutine made to `gatheredData`. -/
def writes : WorkerEnd → List (String × String)
  | finished _ ws => ws
  | nilDeref => []
  | mapFault _ => []

/-- Whether the goroutine called `cmd.Process.Kill()` and came back from it. -/
def killIssued : WorkerEnd → Bool
  | finished k _ => k
  | nilDeref => false
  | mapFault k => k

end WorkerEnd

/-- The body of the goroutine started for `thisTarget` (worker `i`),
executetestrun.go lines 91 to 132: build and start the command, `select`
between the timer and `done`, then the record step
`gatheredData[thisTarget] = string(cmdOutput.Bytes())`, which stands after
the `select` and is reached from both of its cases. The map is shared by the
goroutines without a lock: when the run has more than one goroutine, the
runtime may catch an assignment colliding with another goroutine's
(`collides`) and end the process. -/
def worker (w : World) (ett : ExecuteTestRunTask) (testlet_path : String) (tr : TestRun)
    (i : Nat) (thisTarget : String) : WorkerEnd :=
  let cmd := w.exec i testlet_path thisTarget tr.Args
  let collides := decide (2 ≤ tr.Targets.length) && w.writeFaults i
  match selectCase (timerNs ett.TimeLimit) (w.timerOnTie i) cmd.wait with
  | .timeLimit =>
    match cmd.processKill with
    | none => .nilDeref
    | some _ =>
      if collides then .mapFault true
      else .finished true [(thisTarget, cmd.cmdOutput)]
  | .done (some _) =>
    if collides then .mapFault false
    else .finished false [(thisTarget, "error"), (thisTarget, cmd.cmdOutput)]
  | .done none =>
    if collides then .mapFault false
    else .finished false [(thisTarget, cmd.cmdOutput)]

/-- The value of `testlet_path` after the native / non-native branch (lines 69
to 84). -/
def testletPath (w : World) (ett : ExecuteTestRunTask) (tr : TestRun) : String :=
  if (w.IsNativeTestlet tr.Testlet).1 then (w.IsNativeTestlet tr.Testlet).2
  else ett.OptDir ++ "/assets/testlets/" ++ tr.Testlet

/-- Whether `Run` gives up because a non-native testlet is not on disk: the
test `os.IsNotExist(err)` on the error of `os.Stat(testlet_path)` (line 80). -/
def testletMissing (w : World) (ett : ExecuteTestRunTask) (tr : TestRun) : Bool :=
  !(w.IsNativeTestlet tr.Testlet).1 && w.Stat (testletPath w ett tr) == some .notExist

/-- One goroutine per target, in the order of the `for` loop, each with its
index and target. -/
def workerEnds (w : World) (ett : ExecuteTestRunTask) (tr : TestRun) :
    List (Nat × String × WorkerEnd) :=
  tr.Targets.enum.map fun it => (it.1, it.2, worker w ett (testletPath w ett tr) tr it.1 it.2)

/-- The workers in the order in which they complete. -/
def completionOrder (w : World) (ends : List (Nat × String × WorkerEnd)) :
    List (Nat × String × WorkerEnd) :=
  ends.insertionSort fun a b => w.finishRank a.1 ≤ w.finishRank b.1

/-- Whether some worker goroutine brought the process down (the panic on the
nil process, or the runtime's fault on colliding map writes). -/
def anyPanic (w : World) (ett : ExecuteTestRunTask) (tr : TestRun) : Bool :=
  (workerEnds w ett tr).any fun e => e.2.2.isPanic

/-- The map `gatheredData` once `wg.Wait()` has returned, in a run in which the
runtime caught no colliding assignment (`World.writeFaults`; a run in which
it did ends in `RunResult.mapWritesFault` and has no map to hand on). The
assignments then take effect one after the other. A worker assigns only
under its own target and its last assignment is the record step, so the map
is fixed by the order in which the workers complete. -/
def gatheredData (w : World) (ett : ExecuteTestRunTask) (tr : TestRun) : GoMap String :=
  GoMap.empty.assignAll
    ((completionOrder w (workerEnds w ett tr)).map fun e => e.2.2.writes).flatten

/-- What a call of `Run` did to its surroundings. -/
structure Effects where
  /-- The commands the workers built and started: path, target, args. -/
  commands : List (String × String × String)
  /-- The workers (by index) that called `cmd.Process.Kill()`. -/
  kills : List Nat
  /-- The map handed to `json.Marshal`, when that line was reached. -/
  resultSet : Option (GoMap String)
  /-- The calls of `ac.UpdateTestRunData`: uuid and data. -/
  updateCalls : List (String × String)
deriving DecidableEq, Repr

/-- How a call of `Run` ends. -/
inductive RunResult where
  /-- The call returned `err` to its caller. -/
  | returned (err : Option String) (eff : Effects)
  /-- The process was ended by `log.Fatal` / `os.Exit(code)`. -/
  | exited (code : Nat) (eff : Effects)
  /-- A worker goroutine panicked, which ends the process. -/
  | panicked
  /-- The runtime threw "fatal error: concurrent map writes", which ends the
  process. -/
  | mapWritesFault
deriving DecidableEq, Repr

namespace RunResult

/-- The effects of a call that did not panic. -/
def effects : RunResult → Option Effects
  | returned _ eff => some eff
  | exited _ eff => some eff
  | panicked => none
  | mapWritesFault => none

/-- The map handed to `json.Marshal`, when that line was reached. -/
def resultSet (r : RunResult) : Option (GoMap String) := r.effects.bind Effects.resultSet

end RunResult

/-- No worker started, nothing written. -/
def Effects.none : Effects := ⟨[], [], Option.none, []⟩

/-- The effects of the workers of a run that passed `wg.Wait()`. -/
def workerEffects (w : World) (ett : ExecuteTestRunTask) (tr : TestRun)
    (updateCalls : List (String × String)) : Effects :=
  { commands := tr.Targets.map fun t => (testletPath w ett tr, t, tr.Args)
    kills := ((workerEnds w ett tr).filter fun e => e.2.2.killIssued).map fun e => e.1
    resultSet := some (gatheredData w ett tr)
    updateCalls := updateCalls }

/-- The method `ExecuteTestRunTask.Run` (executetestrun.go lines 39 to 153). The
three-second sleep at its start and the log lines change nothing that is
modelled. Every worker ends, by its `select`, no later than its timer, so
`wg.Wait()` always returns unless a worker brought the process down; of a
panic and a map-write fault in one run the panic is reported. -/
def ExecuteTestRunTask.Run (ett : ExecuteTestRunTask) (w : World) : RunResult :=
  match w.GetTestRun ett.TestUuid with
  | .error _ => .returned (some "Problem retrieving testrun from agent cache") Effects.none
  | .ok tr =>
    if testletMissing w ett tr then
      .returned (some "Error executing testrun - testlet doesn't exist on this agent.")
        Effects.none
    else if anyPanic w ett tr then
      if (workerEnds w ett tr).any (fun e => e.2.2.isNilDeref) then .panicked
      else .mapWritesFault
    else
      match w.Marshal (gatheredData w ett tr) with
      | .error _ => .exited 1 (workerEffects w ett tr [])
      | .ok testdata_json =>
        match w.UpdateTestRunData ett.TestUuid testdata_json with
        | some _ => .exited 1 (workerEffects w ett tr [(ett.TestUuid, testdata_json)])
        | none => .returned Option.none (workerEffects w ett tr [(ett.TestUuid, testdata_json)])

/-- Nothing is at `path`, going by the error of `os.Stat(path)`. -/
def noFileAt (w : World) (path : String) : Bool :=
  w.Stat path == some .notExist || w.Stat path == some .notDir

/-- The time limit elapses before the invocation finishes: the timer delivers
strictly before anything is ready on `done`. -/
def elapsesFirst (timer : Nat) (inv : Invocation) : Bool :=
  match inv.wait with
  | none => true
  | some (d, _) => decide (timer < d)

/-- The invocation finishes before the time limit: the result `err` of
`cmd.Wait()` is ready on `done` strictly before the timer delivers. -/
def finishesFirst (timer : Nat) (inv : Invocation) (err : Option String) : Bool :=
  match inv.wait with
  | none => false
  | some (d, e) => decide (d < timer) && decide (e = err)

/-! ## `DownloadAsset` -/

/-- Whether `sub` occurs in `s` as a run of consecutive characters. -/
def containsChars : List Char → List Char → Bool
  | [], sub => sub.isEmpty
  | c :: cs, sub => sub.isPrefixOf (c :: cs) || containsChars cs sub

/-- The function `strings.Contains`. -/
def Contains (s substr : String) : Bool := containsChars s.toList substr.toList

/-- The function `path.Base`: the last element of a slash-separated path, after
trailing slashes are dropped; "." for the empty path and "/" for a path of
slashes only. -/
def Base (path : String) : String :=
  if path = "" then "."
  else
    let stripped := (path.toList.reverse.dropWhile fun c => c == '/').reverse
    let last := (stripped.reverse.takeWhile fun c => c != '/').reverse
    if last = [] then "/" else String.mk last

/-- A regular file: its bytes and its permission bits. -/
structure File where
  content : String
  perm : Nat
deriving DecidableEq, Repr

/-- What `http.Get(url)` and the copy of the body come to. -/
inductive HttpResult where
  /-- The call `http.Get` returned an error. -/
  | transportErr (msg : String)
  /-- A response arrived. `copyErr` is `none` when `io.Copy` moves the whole
  body, otherwise the number of characters written before it failed and the
  error. -/
  | response (statusCode : Nat) (status : String) (body : String)
      (copyErr : Option (Nat × String))
deriving DecidableEq, Repr

/-- The surroundings of a `DownloadAsset` task. -/
structure Net where
  /-- The call `http.Get(url)`. -/
  Get : String → HttpResult
  /-- The error of `os.OpenFile(path, O_RDWR|O_CREATE|O_TRUNC, 0744)`, `none`
  when the file is opened. -/
  openErr : String → Option String
  /-- The function `filepath.Join` of the platform, on two elements. -/
  Join : String → String → String

/-- What a `DownloadAsset` task changes: the files on disk, by path, and the
HTTP requests sent so far, oldest first. -/
structure Host where
  files : GoMap File
  requests : List String
deriving DecidableEq, Repr

/-- The files after a successful `os.OpenFile(path, O_RDWR|O_CREATE|O_TRUNC, 0744)`:
an existing file is cut to length zero, a missing one is created empty. -/
def openTrunc (files : GoMap File) (path : String) : GoMap File :=
  match files.lookup path with
  | some f => files.assign path { f with content := "" }
  | none => files.assign path ⟨"", 0o744⟩

/-- The files after `data` is written from the start of the opened file. -/
def writeFrom (files : GoMap File) (path : String) (data : String) : GoMap File :=
  match files.lookup path with
  | some f => files.assign path { f with content := data }
  | none => files

/-- Errors of `downloadAsset`, by the `errors.Wrapf` / `errors.Errorf` call that
builds them. -/
inductive AssetError where
  | creating (path : String) (cause : String)
  | httpCall (cause : String)
  | badStatus (status : String)
  | writing (path : String) (cause : String)
deriving DecidableEq, Repr

/-- Errors of `DownloadAsset.Run`. -/
inductive RunError where
  /-- The error `errors.New("invalid asset download URL received")`. -/
  | invalidURL
  /-- The error `errors.Wrapf(err, "downloading %q to %s", assetURL, assetDir)`. -/
  | downloading (assetURL assetDir : String) (cause : AssetError)
deriving DecidableEq, Repr

/-- The task message. -/
structure DownloadAsset where
  Assets : List String
deriving DecidableEq, Repr

/-- The method `DownloadAsset.downloadAsset` (downloadasset.go lines 66 to 96):
the file is opened, and so created or cut to length zero, before the request
is sent. -/
def DownloadAsset.downloadAsset (n : Net) (url directory : String) (s : Host) :
    Option AssetError × Host :=
  let path := n.Join directory (Base url)
  match n.openErr path with
  | some e => (some (.creating path e), s)
  | none =>
    let opened : Host := { files := openTrunc s.files path, requests := s.requests }
    let asked : Host := { files := opened.files, requests := opened.requests ++ [url] }
    match n.Get url with
    | .transportErr e => (some (.httpCall e), asked)
    | .response statusCode status body copyErr =>
      if statusCode ≠ 200 then (some (.badStatus status), asked)
      else
        match copyErr with
        | some (k, e) =>
          (some (.writing path e),
            { asked with files := writeFrom asked.files path (String.mk (body.toList.take k)) })
        | none => (none, { asked with files := writeFrom asked.files path body })

/-- The `for` loop of `DownloadAsset.Run` over the asset URLs still to do
(downloadasset.go lines 45 to 60). -/
def DownloadAsset.loop (n : Net) (baseAssetDir : String) :
    List String → Host → Option RunError × Host
  | [], s => (none, s)
  | assetURL :: rest, s =>
    if Contains assetURL "factcollectors" then
      match DownloadAsset.downloadAsset n assetURL (n.Join baseAssetDir "factcollectors") s with
      | (some err, s1) =>
        (some (.downloading assetURL (n.Join baseAssetDir "factcollectors") err), s1)
      | (none, s1) => DownloadAsset.loop n baseAssetDir rest s1
    else if Contains assetURL "testlets" then
      match DownloadAsset.downloadAsset n assetURL (n.Join baseAssetDir "testlets") s with
      | (some err, s1) =>
        (some (.downloading assetURL (n.Join baseAssetDir "testlets") err), s1)
      | (none, s1) => DownloadAsset.loop n baseAssetDir rest s1
    else (some .invalidURL, s)

/-- The method `DownloadAsset.Run`; `OptDir` is `cfg.LocalResources.OptDir`. -/
def DownloadAsset.Run (t : DownloadAsset) (n : Net) (OptDir : String) (s : Host) :
    Option RunError × Host :=
  DownloadAsset.loop n (n.Join OptDir "assets") t.Assets s

/-! ## Sample runs -/

/-- A process that exits with status 0 one second in, having printed `out`. -/
def exitsOk (out : String) : Invocation := .started (some (1000000000, none)) out none

/-- A process that exits with status 1 one second in, having printed `out`. -/
def exitsWithError (out : String) : Invocation :=
  .started (some (1000000000, some "exit status 1")) out none

/-- A process that is still running whenever it is looked at, with `out`
printed so far; killing it works. -/
def keepsRunning (out : String) : Invocation := .started none out none

/-- A stand-in for `json.Marshal` in the sample worlds: the entries as a JSON
object, in the order of the entry list, without escaping. -/
def sampleEncode (m : GoMap String) : String :=
  "\x7b" ++ String.intercalate ","
    (m.entries.map fun kv => "\"" ++ kv.1 ++ "\":\"" ++ kv.2 ++ "\"") ++ "\x7d"

/-- A world whose cache holds a run of the native testlet "ping" against
`targets`, where worker `i` gets the invocation `invocations i`, workers
complete in index order, the runtime catches no colliding map write, and
encoding and cache write succeed. -/
def sampleWorld (targets : List String) (invocations : Nat → Invocation) : World where
  GetTestRun := fun _ => .ok ⟨"ping", targets, "-c 1"⟩
  IsNativeTestlet := fun name => (true, name)
  Stat := fun _ => none
  exec := fun i _ _ _ => invocations i
  timerOnTie := fun _ => true
  finishRank := fun i => i
  writeFaults := fun _ => false
  Marshal := fun m => .ok (sampleEncode m)
  UpdateTestRunData := fun _ _ => none

/-- The task message of the sample runs: a time limit of five seconds. -/
def sampleTask : ExecuteTestRunTask := ⟨"/opt/todd", "run-1", 5⟩

/-- Two workers: the first succeeds, the second runs into the time limit. -/
def mixedWorld : World :=
  sampleWorld ["10.0.0.1", "10.0.0.2"] fun i =>
    if i = 0 then exitsOk "OK" else keepsRunning "PING 10.0.0.2"

/-- The same target listed twice, both invocations succeed. -/
def repeatedTargetWorld : World := sampleWorld ["10.0.0.1", "10.0.0.1"] fun _ => exitsOk "OK"

/-- The same target listed twice, both invocations succeed, each with a
reading of its own. -/
def repeatedReadingsWorld : World :=
  sampleWorld ["10.0.0.1", "10.0.0.1"] fun i =>
    if i = 0 then exitsOk "rtt=1ms" else exitsOk "rtt=2ms"

/-- Two workers: the testlet fails for the first target only. -/
def oneFailsWorld : World :=
  sampleWorld ["10.0.0.1", "10.0.0.2"] fun i =>
    if i = 0 then exitsWithError "ping: unknown host" else exitsOk "OK"

/-- Two workers that both succeed with "OK". -/
def allOkWorld : World := sampleWorld ["10.0.0.1", "10.0.0.2"] fun _ => exitsOk "OK"

/-- One worker whose testlet cannot be started; the answer of `cmd.Wait()` is
ready on `done` a microsecond after the worker enters its `select`. -/
def launchFailsWorld : World :=
  sampleWorld ["10.0.0.1"] fun _ => .notStarted "executable file not found" 1000

/-- The task message with a time limit of zero seconds. -/
def zeroLimitTask : ExecuteTestRunTask := ⟨"/opt/todd", "run-1", 0⟩

/-- The cache holds no run under the uuid. -/
def noRunWorld : World :=
  { allOkWorld with GetTestRun := fun _ => .error "testrun not found" }

/-- The testlet is not native and its file is not on disk. -/
def noAssetWorld : World :=
  { allOkWorld with
    IsNativeTestlet := fun name => (false, name)
    Stat := fun _ => some .notExist }

/-- The testlet is not native and `/opt/todd/assets` is a regular file: `os.Stat`
of the testlet path fails with ENOTDIR, and so does starting the testlet. -/
def notDirWorld : World :=
  { sampleWorld ["10.0.0.1"]
      (fun _ => .notStarted "fork/exec /opt/todd/assets/testlets/ping: not a directory" 1000)
    with
    IsNativeTestlet := fun name => (false, name)
    Stat := fun _ => some .notDir }

/-- Both workers succeed while the runtime catches the second worker's
assignment colliding with the first's. -/
def collidingWorld : World :=
  { allOkWorld with writeFaults := fun i => decide (i = 1) }

/-- Both workers succeed and the cache write then fails. -/
def persistFailsWorld : World :=
  { allOkWorld with UpdateTestRunData := fun _ _ => some "cache write failed" }

/-- A server that answers 404 for the testlet "ping" and 200 otherwise; every
file can be opened; paths are joined with a slash. -/
def sampleNet : Net where
  Get := fun url =>
    if url = "http://srv/testlets/ping" then .response 404 "404 Not Found" "not found" none
    else .response 200 "200 OK" "#!/bin/sh" none
  openErr := fun _ => none
  Join := fun a b => a ++ "/" ++ b

/-- A disk that already holds a testlet "ping"; no request sent yet. -/
def sampleHost : Host :=
  ⟨⟨[("/opt/todd/assets/testlets/ping", ⟨"old binary", 0o744⟩)]⟩, []⟩


/-! ## Properties of `GoMap` -/

namespace GoMap

variable {β : Type}

theorem lookupEntries_assignEntries_self (k : String) (v : β) (l : List (String × β)) :
    lookupEntries k (assignEntries k v l) = some v := by
  induction l with
  | nil => simp [assignEntries, lookupEntries]
  | cons e rest ih =>
    by_cases h : e.1 = k
    · simp [assignEntries, lookupEntries, h]
    · simp [assignEntries, lookupEntries, h, ih]

theorem lookupEntries_assignEntries_ne {k t : String} (v : β) (l : List (String × β))
    (h : k ≠ t) : lookupEntries t (assignEntries k v l) = lookupEntries t l := by
  induction l with
  | nil => simp [assignEntries, lookupEntries, h]
  | cons e rest ih =>
    by_cases hk : e.1 = k
    · have : e.1 ≠ t := by rw [hk]; exact h
      simp [assignEntries, lookupEntries, hk, h, this]
    · by_cases ht : e.1 = t
      · have htk : ¬ t = k := fun h1 => h h1.symm
        simp [assignEntries, lookupEntries, ht, htk]
      · simp [assignEntries, lookupEntries, hk, ht, ih]

theorem lookup_assign_self (m : GoMap β) (k : String) (v : β) :
    (m.assign k v).lookup k = some v :=
  lookupEntries_assignEntries_self k v m.entries

theorem lookup_assign_ne (m : GoMap β) {k t : String} (v : β) (h : k ≠ t) :
    (m.assign k v).lookup t = m.lookup t :=
  lookupEntries_assignEntries_ne v m.entries h

theorem mem_keys_assignEntries (k t : String) (v : β) (l : List (String × β)) :
    t ∈ (assignEntries k v l).map Prod.fst ↔ t = k ∨ t ∈ l.map Prod.fst := by
  induction l with
  | nil => simp [assignEntries]
  | cons e rest ih =>
    by_cases hk : e.1 = k
    · simp only [assignEntries, hk, if_true, List.map_cons, List.mem_cons]
      tauto
    · simp only [assignEntries, hk, if_false, List.map_cons, List.mem_cons, ih]
      tauto

theorem nodup_keys_assignEntries (k : String) (v : β) (l : List (String × β))
    (h : (l.map Prod.fst).Nodup) : ((assignEntries k v l).map Prod.fst).Nodup := by
  induction l with
  | nil => simp [assignEntries]
  | cons e rest ih =>
    rw [List.map_cons, List.nodup_cons] at h
    by_cases hk : e.1 = k
    · simp only [assignEntries, hk, if_true, List.map_cons, List.nodup_cons]
      exact ⟨hk ▸ h.1, h.2⟩
    · simp only [assignEntries, hk, if_false, List.map_cons, List.nodup_cons]
      refine ⟨?_, ih h.2⟩
      rw [mem_keys_assignEntries]
      rintro (h1 | h1)
      · exact hk h1
      · exact h.1 h1

theorem lookupEntries_isSome_iff (t : String) (l : List (String × β)) :
    (lookupEntries t l).isSome ↔ t ∈ l.map Prod.fst := by
  induction l with
  | nil => simp [lookupEntries]
  | cons e rest ih =>
    by_cases h : e.1 = t
    · simp [lookupEntries, h]
    · have h' : ¬ t = e.1 := fun h1 => h h1.symm
      simp [lookupEntries, h, h', ih]

theorem lookup_isSome_iff (m : GoMap β) (t : String) : (m.lookup t).isSome ↔ t ∈ m.keys :=
  lookupEntries_isSome_iff t m.entries

theorem assignAll_append (m : GoMap β) (ws ws' : List (String × β)) :
    m.assignAll (ws ++ ws') = (m.assignAll ws).assignAll ws' := by
  simp [assignAll]

theorem mem_keys_assignAll (t : String) (ws : List (String × β)) (m : GoMap β) :
    t ∈ (m.assignAll ws).keys ↔ t ∈ m.keys ∨ t ∈ ws.map Prod.fst := by
  induction ws generalizing m with
  | nil => simp [assignAll]
  | cons kv rest ih =>
    have h := ih (m.assign kv.1 kv.2)
    simp only [assignAll, List.foldl_cons] at h ⊢
    rw [h]
    simp only [keys, assign, mem_keys_assignEntries, List.map_cons, List.mem_cons]
    tauto

theorem nodup_keys_assignAll (ws : List (String × β)) (m : GoMap β) (h : m.keys.Nodup) :
    (m.assignAll ws).keys.Nodup := by
  induction ws generalizing m with
  | nil => simpa [assignAll] using h
  | cons kv rest ih =>
    exact ih (m.assign kv.1 kv.2) (nodup_keys_assignEntries kv.1 kv.2 m.entries h)

/-- Assignments that all go to one key leave every other key alone and leave
the last assigned value under that key. -/
theorem lookup_assignAll_block (k : String) (ws : List (String × β)) (m : GoMap β)
    (hk : ∀ kv ∈ ws, kv.1 = k) (t : String) :
    (m.assignAll ws).lookup t =
      if t = k then (match ws.getLast? with
        | some kv => some kv.2
        | none => m.lookup t)
      else m.lookup t := by
  induction ws using List.reverseRecOn with
  | nil => simp [assignAll]
  | append_singleton rest kv ih =>
    have hkv : kv.1 = k := hk kv (by simp)
    rw [assignAll_append]
    simp only [assignAll, List.foldl_cons, List.foldl_nil, List.getLast?_append, List.getLast?_singleton]
    by_cases ht : t = k
    · subst ht
      simp [← hkv, lookup_assign_self]
    · have : kv.1 ≠ t := by rw [hkv]; exact fun h => ht h.symm
      rw [lookup_assign_ne _ _ this]
      have := ih (fun kv h => hk kv (by simp [h]))
      simp only [assignAll] at this
      rw [this]; simp [ht]

end GoMap

namespace GoMap

variable {β : Type}

/-- Blocks of assignments, each block under a key of its own, performed one
block after the other on the empty map: the value found under a key is the
last value of some block of that key. -/
theorem lookup_assignAll_blocks {α : Type} (key : α → String) (ws : α → List (String × β))
    (bs : List α) (hkey : ∀ b ∈ bs, ∀ kv ∈ ws b, kv.1 = key b) (t : String) (v : β)
    (h : ((empty : GoMap β).assignAll (bs.map ws).flatten).lookup t = some v) :
    ∃ b ∈ bs, key b = t ∧ (ws b).getLast? = some (t, v) := by
  induction bs using List.reverseRecOn with
  | nil => simp [assignAll, empty, lookup, lookupEntries] at h
  | append_singleton rest b ih =>
    rw [List.map_append, List.flatten_append, assignAll_append] at h
    simp only [List.map_cons, List.map_nil, List.flatten_cons, List.flatten_nil,
      List.append_nil] at h
    rw [lookup_assignAll_block (key b) (ws b) _ (hkey b (by simp)) t] at h
    have back : (empty.assignAll (rest.map ws).flatten).lookup t = some v →
        ∃ b' ∈ rest ++ [b], key b' = t ∧ (ws b').getLast? = some (t, v) := by
      intro h'
      obtain ⟨b', hb', h1, h2⟩ := ih (fun b' hb' => hkey b' (by simp [hb'])) h'
      exact ⟨b', by simp [hb'], h1, h2⟩
    by_cases ht : t = key b
    · rw [if_pos ht] at h
      cases hl : (ws b).getLast? with
      | none => rw [hl] at h; exact back h
      | some kv =>
        rw [hl] at h
        simp only [Option.some.injEq] at h
        have hmem : kv ∈ ws b := List.mem_of_getLast?_eq_some hl
        have hk1 : kv.1 = t := by rw [hkey b (by simp) kv hmem, ht]
        refine ⟨b, by simp, ht.symm, ?_⟩
        rw [← hk1, ← h]
        exact hl
    · rw [if_neg ht] at h
      exact back h

/-- Assignments under other keys leave the value under a key alone. -/
theorem lookup_assignAll_of_keys_ne (t : String) (ws : List (String × β)) (m : GoMap β)
    (h : ∀ kv ∈ ws, kv.1 ≠ t) : (m.assignAll ws).lookup t = m.lookup t := by
  induction ws generalizing m with
  | nil => rfl
  | cons kv rest ih =>
    have h1 := ih (m.assign kv.1 kv.2) (fun kv' hkv' => h kv' (by simp [hkv']))
    simp only [assignAll, List.foldl_cons] at h1 ⊢
    rw [h1, lookup_assign_ne _ _ (h kv (by simp))]

/-- Blocks of assignments, each block under a key of its own: the value found
under a key is the last value of the last block of that key. -/
theorem lookup_assignAll_last_block {α : Type}
    (ws : α → List (String × β)) (pre post : List α) (b : α) (m : GoMap β) (t : String)
    (v : β) (hb : ∀ kv ∈ ws b, kv.1 = t) (hlast : (ws b).getLast? = some (t, v))
    (hpost : ∀ b' ∈ post, ∀ kv ∈ ws b', kv.1 ≠ t) :
    (m.assignAll ((pre ++ b :: post).map ws).flatten).lookup t = some v := by
  rw [List.map_append, List.map_cons, List.flatten_append, List.flatten_cons,
    assignAll_append, assignAll_append]
  rw [lookup_assignAll_of_keys_ne]
  · rw [lookup_assignAll_block t (ws b) _ hb t, if_pos rfl, hlast]
  · intro kv hkv
    simp only [List.mem_flatten, List.mem_map, exists_exists_and_eq_and] at hkv
    obtain ⟨b', hb', hkv'⟩ := hkv
    exact hpost b' hb' kv hkv'

end GoMap

/-! ## Properties of the workers -/

theorem worker_writes_key (w : World) (ett : ExecuteTestRunTask) (p : String) (tr : TestRun)
    (i : Nat) (t : String) : ∀ kv ∈ (worker w ett p tr i t).writes, kv.1 = t := by
  intro kv hkv
  unfold worker at hkv
  simp only at hkv
  generalize selectCase _ _ _ = sc at hkv
  generalize (w.exec i p t tr.Args).processKill = pk at hkv
  generalize (decide (2 ≤ tr.Targets.length) && w.writeFaults i) = c at hkv
  rcases sc with _ | _ | _ <;> rcases pk with _ | _ <;> cases c <;>
    simp only [WorkerEnd.writes, List.mem_cons, List.mem_singleton, List.not_mem_nil,
      or_false, if_true, if_false, Bool.false_eq_true] at hkv <;>
    first
      | exact absurd hkv id
      | (rcases hkv with h | h <;> rw [h])
      | rw [hkv]

theorem worker_getLast (w : World) (ett : ExecuteTestRunTask) (p : String) (tr : TestRun)
    (i : Nat) (t : String) (h : (worker w ett p tr i t).isPanic = false) :
    (worker w ett p tr i t).writes.getLast? = some (t, (w.exec i p t tr.Args).cmdOutput) := by
  unfold worker at h ⊢
  simp only at h ⊢
  generalize selectCase _ _ _ = sc at h ⊢
  generalize (w.exec i p t tr.Args).processKill = pk at h ⊢
  generalize (decide (2 ≤ tr.Targets.length) && w.writeFaults i) = c at h ⊢
  rcases sc with _ | _ | _ <;> rcases pk with _ | _ <;> cases c <;>
    simp_all [WorkerEnd.writes, WorkerEnd.isPanic]

theorem mem_workerEnds (w : World) (ett : ExecuteTestRunTask) (tr : TestRun)
    (e : Nat × String × WorkerEnd) :
    e ∈ workerEnds w ett tr ↔
      tr.Targets[e.1]? = some e.2.1 ∧
        e.2.2 = worker w ett (testletPath w ett tr) tr e.1 e.2.1 := by
  unfold workerEnds
  simp only [List.mem_map, List.mem_enum_iff_getElem?]
  constructor
  · rintro ⟨it, hit, rfl⟩
    exact ⟨hit, rfl⟩
  · rintro ⟨h1, h2⟩
    refine ⟨(e.1, e.2.1), h1, ?_⟩
    obtain ⟨i, t, we⟩ := e
    simp only at h2 ⊢
    rw [h2]

theorem mem_completionOrder (w : World) (ends : List (Nat × String × WorkerEnd))
    (e : Nat × String × WorkerEnd) : e ∈ completionOrder w ends ↔ e ∈ ends :=
  (List.perm_insertionSort _ ends).mem_iff

theorem noPanic_worker {w : World} {ett : ExecuteTestRunTask} {tr : TestRun}
    (h : anyPanic w ett tr = false) {i : Nat} {t : String} (hi : tr.Targets[i]? = some t) :
    (worker w ett (testletPath w ett tr) tr i t).isPanic = false := by
  unfold anyPanic at h
  simp only [List.any_eq_false] at h
  have := h (i, t, worker w ett (testletPath w ett tr) tr i t)
    ((mem_workerEnds w ett tr _).2 ⟨hi, rfl⟩)
  simpa using this

theorem workerEnds_nodup (w : World) (ett : ExecuteTestRunTask) (tr : TestRun) :
    (workerEnds w ett tr).Nodup := by
  have h : (workerEnds w ett tr).map Prod.fst = List.range tr.Targets.length := by
    unfold workerEnds
    rw [List.map_map]
    exact List.enum_map_fst tr.Targets
  exact List.Nodup.of_map Prod.fst (h ▸ List.nodup_range _)

theorem completionOrder_sorted (w : World) (ends : List (Nat × String × WorkerEnd)) :
    (completionOrder w ends).Pairwise fun a b => w.finishRank a.1 ≤ w.finishRank b.1 := by
  haveI : IsTotal (Nat × String × WorkerEnd)
      (fun a b => w.finishRank a.1 ≤ w.finishRank b.1) :=
    ⟨fun a b => Nat.le_total (w.finishRank a.1) (w.finishRank b.1)⟩
  haveI : IsTrans (Nat × String × WorkerEnd)
      (fun a b => w.finishRank a.1 ≤ w.finishRank b.1) :=
    ⟨fun _ _ _ h1 h2 => Nat.le_trans h1 h2⟩
  exact List.sorted_insertionSort _ ends

/-- Every key of the gathered map is a target of the run. -/
theorem gatheredData_keys_sub (w : World) (ett : ExecuteTestRunTask) (tr : TestRun)
    (t : String) (h : t ∈ (gatheredData w ett tr).keys) : t ∈ tr.Targets := by
  unfold gatheredData at h
  rw [GoMap.mem_keys_assignAll] at h
  rcases h with h | h
  · simp [GoMap.empty, GoMap.keys] at h
  · simp only [List.mem_map, List.mem_flatten, exists_exists_and_eq_and] at h
    obtain ⟨kv, ⟨e, he, hkv⟩, rfl⟩ := h
    rw [mem_completionOrder, mem_workerEnds] at he
    rw [he.2] at hkv
    rw [worker_writes_key _ _ _ _ _ _ kv hkv]
    exact List.getElem?_mem he.1

/-- Once no worker panicked, every target has a key in the gathered map. -/
theorem gatheredData_keys_sup (w : World) (ett : ExecuteTestRunTask) (tr : TestRun)
    (hnp : anyPanic w ett tr = false) (t : String) (h : t ∈ tr.Targets) :
    t ∈ (gatheredData w ett tr).keys := by
  obtain ⟨i, hi⟩ := List.getElem?_of_mem h
  unfold gatheredData
  rw [GoMap.mem_keys_assignAll]
  right
  simp only [List.mem_map, List.mem_flatten, exists_exists_and_eq_and]
  have hl := worker_getLast w ett (testletPath w ett tr) tr i t (noPanic_worker hnp hi)
  refine ⟨_, ⟨(i, t, worker w ett (testletPath w ett tr) tr i t), ?_,
    List.mem_of_getLast?_eq_some hl⟩, rfl⟩
  rw [mem_completionOrder, mem_workerEnds]
  exact ⟨hi, rfl⟩

/-- Once no worker panicked, the gathered map holds, under every target, the
stdout captured by one of the workers started for that target. -/
theorem gatheredData_lookup (w : World) (ett : ExecuteTestRunTask) (tr : TestRun)
    (hnp : anyPanic w ett tr = false) (t : String) (h : t ∈ tr.Targets) :
    ∃ i, tr.Targets[i]? = some t ∧
      (gatheredData w ett tr).lookup t =
        some (w.exec i (testletPath w ett tr) t tr.Args).cmdOutput := by
  have hk := gatheredData_keys_sup w ett tr hnp t h
  rw [← GoMap.lookup_isSome_iff, Option.isSome_iff_exists] at hk
  obtain ⟨v, hv⟩ := hk
  have hv' := hv
  unfold gatheredData at hv
  obtain ⟨e, he, hkey, hlast⟩ := GoMap.lookup_assignAll_blocks
    (fun e : Nat × String × WorkerEnd => e.2.1) (fun e => e.2.2.writes)
    (completionOrder w (workerEnds w ett tr))
    (by
      intro e he kv hkv
      rw [mem_completionOrder, mem_workerEnds] at he
      simp only at hkv ⊢
      rw [he.2] at hkv
      exact worker_writes_key _ _ _ _ _ _ kv hkv) t v hv
  rw [mem_completionOrder, mem_workerEnds] at he
  replace hkey : e.2.1 = t := hkey
  replace hlast : e.2.2.writes.getLast? = some (t, v) := hlast
  rw [hkey] at he
  refine ⟨e.1, he.1, ?_⟩
  rw [hv']
  have hl := worker_getLast w ett (testletPath w ett tr) tr e.1 t (noPanic_worker hnp he.1)
  rw [he.2, hl] at hlast
  simp only [Option.some.injEq, Prod.mk.injEq, true_and] at hlast
  rw [hlast]


/-- Once no worker brought the process down, the gathered map holds, under a
target, the stdout captured by the worker of that target that completes
after all the other workers of that target. -/
theorem gatheredData_lookup_last (w : World) (ett : ExecuteTestRunTask) (tr : TestRun)
    (hnp : anyPanic w ett tr = false) (i : Nat) (t : String)
    (hi : tr.Targets[i]? = some t)
    (hlate : ∀ j, tr.Targets[j]? = some t → j ≠ i → w.finishRank j < w.finishRank i) :
    (gatheredData w ett tr).lookup t =
      some (w.exec i (testletPath w ett tr) t tr.Args).cmdOutput := by
  have hmem : (i, t, worker w ett (testletPath w ett tr) tr i t) ∈
      completionOrder w (workerEnds w ett tr) := by
    rw [mem_completionOrder, mem_workerEnds]
    exact ⟨hi, rfl⟩
  obtain ⟨pre, post, hsplit⟩ := List.append_of_mem hmem
  have hnd : (completionOrder w (workerEnds w ett tr)).Nodup :=
    (List.perm_insertionSort _ _).nodup_iff.2 (workerEnds_nodup w ett tr)
  have hsorted := completionOrder_sorted w (workerEnds w ett tr)
  have hin : ∀ b ∈ post, b ∈ workerEnds w ett tr := by
    intro b hb
    rw [← mem_completionOrder w, hsplit]
    simp [hb]
  rw [hsplit] at hnd hsorted
  unfold gatheredData
  rw [hsplit]
  refine GoMap.lookup_assignAll_last_block
    (fun e : Nat × String × WorkerEnd => e.2.2.writes) pre post _ _ t _ ?_ ?_ ?_
  · exact worker_writes_key w ett _ tr i t
  · exact worker_getLast w ett _ tr i t (noPanic_worker hnp hi)
  · intro b hb kv hkv hkey
    have hb' := (mem_workerEnds w ett tr b).1 (hin b hb)
    replace hkv : kv ∈ b.2.2.writes := hkv
    rw [hb'.2] at hkv
    have hbt : b.2.1 = t := by
      rw [← worker_writes_key w ett _ tr b.1 b.2.1 kv hkv, hkey]
    have hle : w.finishRank i ≤ w.finishRank b.1 :=
      (List.pairwise_cons.1 (List.pairwise_append.1 hsorted).2.1).1 b hb
    have hnotin : (i, t, worker w ett (testletPath w ett tr) tr i t) ∉ post :=
      (List.nodup_cons.1 (List.nodup_append.1 hnd).2.1).1
    by_cases hji : b.1 = i
    · apply hnotin
      have hbe : b = (i, t, worker w ett (testletPath w ett tr) tr i t) := by
        obtain ⟨j, t', we⟩ := b
        simp only at hji hbt hb'
        subst hji
        subst hbt
        rw [hb'.2]
      rw [← hbe]
      exact hb
    · have := hlate b.1 (hbt ▸ hb'.1) hji
      omega

/-! ## The shape of `Run` -/

/-- Past the fetch, the testlet check and the barrier, `Run` is decided by the
encoder and the cache write. -/
theorem Run_past_barrier (w : World) (ett : ExecuteTestRunTask) (tr : TestRun)
    (hfetch : w.GetTestRun ett.TestUuid = .ok tr) (hpresent : testletMissing w ett tr = false)
    (hnp : anyPanic w ett tr = false) :
    ett.Run w =
      match w.Marshal (gatheredData w ett tr) with
      | .error _ => .exited 1 (workerEffects w ett tr [])
      | .ok js =>
        match w.UpdateTestRunData ett.TestUuid js with
        | some _ => .exited 1 (workerEffects w ett tr [(ett.TestUuid, js)])
        | none => .returned none (workerEffects w ett tr [(ett.TestUuid, js)]) := by
  simp [ExecuteTestRunTask.Run, hfetch, hpresent, hnp]

/-- A run that handed a map to the encoder passed the testlet check and the
barrier, and the map is the gathered one. -/
theorem Run_resultSet (w : World) (ett : ExecuteTestRunTask) (tr : TestRun) (gd : GoMap String)
    (hfetch : w.GetTestRun ett.TestUuid = .ok tr) (h : (ett.Run w).resultSet = some gd) :
    testletMissing w ett tr = false ∧ anyPanic w ett tr = false ∧
      gd = gatheredData w ett tr := by
  cases hm : testletMissing w ett tr with
  | true =>
    simp [ExecuteTestRunTask.Run, hfetch, hm, RunResult.resultSet, RunResult.effects,
      Effects.none] at h
  | false =>
    cases hp : anyPanic w ett tr with
    | true =>
      simp only [ExecuteTestRunTask.Run, hfetch, hm, hp, if_true, Bool.false_eq_true,
        if_false] at h
      split at h <;> simp [RunResult.resultSet, RunResult.effects] at h
    | false =>
      refine ⟨rfl, rfl, ?_⟩
      rw [Run_past_barrier w ett tr hfetch hm hp] at h
      cases hj : w.Marshal (gatheredData w ett tr) with
      | error e =>
        simp [hj, RunResult.resultSet, RunResult.effects, workerEffects] at h
        exact h.symm
      | ok js =>
        cases hu : w.UpdateTestRunData ett.TestUuid js <;>
          simp [hj, hu, RunResult.resultSet, RunResult.effects, workerEffects] at h <;>
          exact h.symm

/-- A run that returned nil passed the testlet check and the barrier, encoded
the gathered map and wrote the encoding to the cache. -/
theorem Run_returned_nil (w : World) (ett : ExecuteTestRunTask) (tr : TestRun) (eff : Effects)
    (hfetch : w.GetTestRun ett.TestUuid = .ok tr) (h : ett.Run w = .returned none eff) :
    testletMissing w ett tr = false ∧ anyPanic w ett tr = false ∧
      ∃ js, w.Marshal (gatheredData w ett tr) = .ok js ∧
        w.UpdateTestRunData ett.TestUuid js = none ∧
        eff = workerEffects w ett tr [(ett.TestUuid, js)] := by
  cases hm : testletMissing w ett tr with
  | true => simp [ExecuteTestRunTask.Run, hfetch, hm] at h
  | false =>
    cases hp : anyPanic w ett tr with
    | true =>
      simp only [ExecuteTestRunTask.Run, hfetch, hm, hp, if_true, Bool.false_eq_true,
        if_false] at h
      split at h <;> simp at h
    | false =>
      refine ⟨rfl, rfl, ?_⟩
      rw [Run_past_barrier w ett tr hfetch hm hp] at h
      cases hj : w.Marshal (gatheredData w ett tr) with
      | error e => simp [hj] at h
      | ok js =>
        cases hu : w.UpdateTestRunData ett.TestUuid js with
        | some e => simp [hj, hu] at h
        | none =>
          simp only [hj, hu, RunResult.returned.injEq, true_and] at h
          exact ⟨js, rfl, hu, h.symm⟩

/-- The gathered map has one entry for each distinct target. -/
theorem gatheredData_len (w : World) (ett : ExecuteTestRunTask) (tr : TestRun)
    (hnp : anyPanic w ett tr = false) :
    (gatheredData w ett tr).len = tr.Targets.dedup.length := by
  have hnd : (gatheredData w ett tr).keys.Nodup := by
    unfold gatheredData
    exact GoMap.nodup_keys_assignAll _ _ (by simp [GoMap.empty, GoMap.keys])
  have hperm : (gatheredData w ett tr).keys.Perm tr.Targets.dedup := by
    rw [List.perm_ext_iff_of_nodup hnd (List.nodup_dedup _)]
    intro t
    rw [List.mem_dedup]
    exact ⟨gatheredData_keys_sub w ett tr t, gatheredData_keys_sup w ett tr hnp t⟩
  have := hperm.length_eq
  simpa [GoMap.keys, GoMap.len] using this

theorem gatheredData_nodup (w : World) (ett : ExecuteTestRunTask) (tr : TestRun) :
    (gatheredData w ett tr).keys.Nodup := by
  unfold gatheredData
  exact GoMap.nodup_keys_assignAll _ _ (by simp [GoMap.empty, GoMap.keys])

theorem selectCase_of_elapsesFirst (timer : Nat) (tie : Bool) (inv : Invocation)
    (h : elapsesFirst timer inv = true) : selectCase timer tie inv.wait = .timeLimit := by
  unfold elapsesFirst at h
  cases hw : inv.wait with
  | none => rfl
  | some de =>
    obtain ⟨d, e⟩ := de
    rw [hw] at h
    simp only [decide_eq_true_eq] at h
    have h1 : ¬ d < timer := by omega
    simp only [selectCase, h1, h, if_true, if_false]

theorem selectCase_of_finishesFirst (timer : Nat) (tie : Bool) (inv : Invocation)
    (err : Option String) (h : finishesFirst timer inv err = true) :
    selectCase timer tie inv.wait = .done err := by
  unfold finishesFirst at h
  cases hw : inv.wait with
  | none => simp [hw] at h
  | some de =>
    obtain ⟨d, e⟩ := de
    rw [hw] at h
    simp only [Bool.and_eq_true, decide_eq_true_eq] at h
    simp only [selectCase, h.1, if_true, h.2]

/-- A worker whose timer delivers first, on a started process, calls `Kill` and
then records the captured stdout. -/
theorem worker_timeLimit (w : World) (ett : ExecuteTestRunTask) (p : String) (tr : TestRun)
    (i : Nat) (t : String)
    (hslow : elapsesFirst (timerNs ett.TimeLimit) (w.exec i p t tr.Args) = true)
    (hnp : (worker w ett p tr i t).isPanic = false) :
    worker w ett p tr i t = .finished true [(t, (w.exec i p t tr.Args).cmdOutput)] := by
  unfold worker at hnp ⊢
  simp only [selectCase_of_elapsesFirst _ _ _ hslow] at hnp ⊢
  generalize (w.exec i p t tr.Args).processKill = pk at hnp ⊢
  generalize (decide (2 ≤ tr.Targets.length) && w.writeFaults i) = c at hnp ⊢
  rcases pk with _ | _ <;> cases c <;> simp_all [WorkerEnd.isPanic]

/-- A worker whose process ends without error before the timer does not call
`Kill`. -/
theorem worker_success_noKill (w : World) (ett : ExecuteTestRunTask) (p : String)
    (tr : TestRun) (i : Nat) (t : String)
    (hok : finishesFirst (timerNs ett.TimeLimit) (w.exec i p t tr.Args) none = true) :
    (worker w ett p tr i t).killIssued = false := by
  unfold worker
  simp only [selectCase_of_finishesFirst _ _ _ _ hok]
  generalize (decide (2 ≤ tr.Targets.length) && w.writeFaults i) = c
  cases c <;> rfl

/-- A worker whose process was started, and none of whose assignments the
runtime catches colliding, runs to its end. -/
theorem worker_started_noPanic (w : World) (ett : ExecuteTestRunTask) (p : String)
    (tr : TestRun) (i : Nat) (t : String)
    (hstarted : (w.exec i p t tr.Args).processKill ≠ none)
    (hquiet : w.writeFaults i = false) :
    (worker w ett p tr i t).isPanic = false := by
  unfold worker
  simp only [hquiet, Bool.and_false]
  generalize selectCase _ _ _ = sc
  cases hk : (w.exec i p t tr.Args).processKill with
  | none => exact absurd hk hstarted
  | some e => rcases sc with _ | _ | _ <;> rfl

/-- As long as every testlet process could be started and the runtime catches
no colliding map write, no outcome of a worker (exit status, time limit,
failed kill) keeps `Run` from the barrier: with encoding and cache write
succeeding it persists the gathered map and returns nil. -/
theorem Run_started_quiet_returns_nil (w : World) (ett : ExecuteTestRunTask) (tr : TestRun)
    (js : String)
    (hfetch : w.GetTestRun ett.TestUuid = .ok tr)
    (hpresent : testletMissing w ett tr = false)
    (hstarted : ∀ i t, tr.Targets[i]? = some t →
      (w.exec i (testletPath w ett tr) t tr.Args).processKill ≠ none)
    (hquiet : ∀ i, w.writeFaults i = false)
    (hm : w.Marshal (gatheredData w ett tr) = .ok js)
    (hu : w.UpdateTestRunData ett.TestUuid js = none) :
    ett.Run w = .returned none (workerEffects w ett tr [(ett.TestUuid, js)]) := by
  have hnp : anyPanic w ett tr = false := by
    unfold anyPanic
    rw [List.any_eq_false]
    intro e he
    rw [mem_workerEnds] at he
    rw [he.2, worker_started_noPanic w ett _ tr e.1 e.2.1 (hstarted _ _ he.1) (hquiet _)]
    simp
  rw [Run_past_barrier w ett tr hfetch hpresent hnp]
  simp only [hm, hu]

/-- A run of two workers that both succeed, in which the runtime catches the
second worker's assignment colliding with the first's, does not return: the
process ends with "fatal error: concurrent map writes". -/
theorem colliding_run_faults : sampleTask.Run collidingWorld = .mapWritesFault := by
  decide

/-! ## The loop of `DownloadAsset.Run` -/

/-- The loop over a list of URLs, when its first part goes through without an
error, goes on with the rest from the state the first part left. -/
theorem loop_append (n : Net) (base : String) (pre rest : List String) (s s' : Host)
    (hpre : DownloadAsset.loop n base pre s = (none, s')) :
    DownloadAsset.loop n base (pre ++ rest) s = DownloadAsset.loop n base rest s' := by
  induction pre generalizing s with
  | nil =>
    simp only [DownloadAsset.loop, Prod.mk.injEq, true_and] at hpre
    simp [hpre]
  | cons u us ih =>
    simp only [List.cons_append, DownloadAsset.loop] at hpre ⊢
    split_ifs at hpre ⊢ with h1 h2
    · cases hd : DownloadAsset.downloadAsset n u (n.Join base "factcollectors") s with
      | mk r s1 =>
        cases r with
        | some e => simp [hd] at hpre
        | none =>
          simp only [hd] at hpre ⊢
          exact ih s1 hpre
    · cases hd : DownloadAsset.downloadAsset n u (n.Join base "testlets") s with
      | mk r s1 =>
        cases r with
        | some e => simp [hd] at hpre
        | none =>
          simp only [hd] at hpre ⊢
          exact ih s1 hpre
    · simp at hpre


/-! ## The claims about `ExecuteTestRunTask.Run` -/

/-- C1, as stated, fails: a run whose target list names "10.0.0.1" twice
completes without error and hands `UpdateTestRunData` a result set of one
entry, not two. -/
theorem repeated_target_single_entry :
    repeatedTargetWorld.GetTestRun sampleTask.TestUuid =
        .ok ⟨"ping", ["10.0.0.1", "10.0.0.1"], "-c 1"⟩ ∧
      sampleTask.Run repeatedTargetWorld =
        .returned none
          { commands := [("ping", "10.0.0.1", "-c 1"), ("ping", "10.0.0.1", "-c 1")]
            kills := []
            resultSet := some ⟨[("10.0.0.1", "OK")]⟩
            updateCalls := [("run-1", sampleEncode ⟨[("10.0.0.1", "OK")]⟩)] } ∧
      (GoMap.mk [("10.0.0.1", "OK")]).len ≠ ["10.0.0.1", "10.0.0.1"].length := by
  refine ⟨rfl, ?_, ?_⟩ <;> decide

/-- C1 (amended): when `Run` fetches a test run and returns nil, the result set
it encoded and passed to `UpdateTestRunData` has an entry under every target
of the list and under no other key, whatever the workers ended in; it has as
many entries as the list has distinct targets, so exactly N entries when the
N targets are pairwise distinct. -/
theorem persisted_entry_per_distinct_target (w : World) (ett : ExecuteTestRunTask)
    (tr : TestRun) (eff : Effects)
    (hfetch : w.GetTestRun ett.TestUuid = .ok tr)
    (hrun : ett.Run w = .returned none eff) :
    ∃ gd js, eff.resultSet = some gd ∧ w.Marshal gd = .ok js ∧
      eff.updateCalls = [(ett.TestUuid, js)] ∧
      (∀ t, (gd.lookup t).isSome ↔ t ∈ tr.Targets) ∧
      gd.keys.Nodup ∧
      gd.len = tr.Targets.dedup.length ∧
      (tr.Targets.Nodup → gd.len = tr.Targets.length) := by
  obtain ⟨-, hnp, js, hj, -, heff⟩ := Run_returned_nil w ett tr eff hfetch hrun
  refine ⟨gatheredData w ett tr, js, ?_, hj, ?_, ?_, gatheredData_nodup w ett tr,
    gatheredData_len w ett tr hnp, ?_⟩
  · rw [heff]; rfl
  · rw [heff]; rfl
  · intro t
    rw [GoMap.lookup_isSome_iff]
    exact ⟨gatheredData_keys_sub w ett tr t, gatheredData_keys_sup w ett tr hnp t⟩
  · intro hnd
    rw [gatheredData_len w ett tr hnp, hnd.dedup]

/-- C1 (amended), on a run of two distinct targets of which one succeeds and one
runs into the time limit. -/
theorem persisted_entry_per_distinct_target_witness :
    mixedWorld.GetTestRun sampleTask.TestUuid =
        .ok ⟨"ping", ["10.0.0.1", "10.0.0.2"], "-c 1"⟩ ∧
      ∃ gd js, some (GoMap.mk [("10.0.0.1", "OK"), ("10.0.0.2", "PING 10.0.0.2")]) = some gd ∧
        mixedWorld.Marshal gd = .ok js ∧
        [("run-1", sampleEncode ⟨[("10.0.0.1", "OK"), ("10.0.0.2", "PING 10.0.0.2")]⟩)] =
          [(sampleTask.TestUuid, js)] ∧
        (∀ t, (gd.lookup t).isSome ↔ t ∈ ["10.0.0.1", "10.0.0.2"]) ∧
        gd.keys.Nodup ∧
        gd.len = ["10.0.0.1", "10.0.0.2"].dedup.length ∧
        (["10.0.0.1", "10.0.0.2"].Nodup → gd.len = ["10.0.0.1", "10.0.0.2"].length) :=
  ⟨rfl, persisted_entry_per_distinct_target mixedWorld sampleTask
    ⟨"ping", ["10.0.0.1", "10.0.0.2"], "-c 1"⟩
    { commands := [("ping", "10.0.0.1", "-c 1"), ("ping", "10.0.0.2", "-c 1")]
      kills := [1]
      resultSet := some ⟨[("10.0.0.1", "OK"), ("10.0.0.2", "PING 10.0.0.2")]⟩
      updateCalls :=
        [("run-1", sampleEncode ⟨[("10.0.0.1", "OK"), ("10.0.0.2", "PING 10.0.0.2")]⟩)] }
    rfl (by decide)⟩

/-- C2: the code at a run where the testlet exits with status 1 for "10.0.0.1"
only, one second into a five-second limit. The worker's first assignment is
"error", its record step then overwrites it, and the persisted result set
maps "10.0.0.1" to the captured stdout instead of "error". -/
theorem error_outcome_overwritten :
    finishesFirst (timerNs sampleTask.TimeLimit)
        (oneFailsWorld.exec 0 "ping" "10.0.0.1" "-c 1") (some "exit status 1") = true ∧
      worker oneFailsWorld sampleTask "ping" ⟨"ping", ["10.0.0.1", "10.0.0.2"], "-c 1"⟩ 0
          "10.0.0.1" =
        .finished false [("10.0.0.1", "error"), ("10.0.0.1", "ping: unknown host")] ∧
      sampleTask.Run oneFailsWorld =
        .returned none
          { commands := [("ping", "10.0.0.1", "-c 1"), ("ping", "10.0.0.2", "-c 1")]
            kills := []
            resultSet := some ⟨[("10.0.0.1", "ping: unknown host"), ("10.0.0.2", "OK")]⟩
            updateCalls :=
              [("run-1",
                sampleEncode ⟨[("10.0.0.1", "ping: unknown host"), ("10.0.0.2", "OK")]⟩)] } ∧
      (GoMap.mk [("10.0.0.1", "ping: unknown host"), ("10.0.0.2", "OK")]).lookup "10.0.0.1" ≠
        some "error" := by
  refine ⟨?_, ?_, ?_, ?_⟩ <;> decide

/-- C4, as stated, fails: "10.0.0.1" is listed twice, both invocations finish
without error one second into a five-second limit, the first printed
"rtt=1ms" and the second "rtt=2ms"; the persisted result set has the one
entry "rtt=2ms", so the first listed target is not mapped to the text its
invocation wrote. -/
theorem repeated_target_keeps_one_output :
    repeatedReadingsWorld.GetTestRun sampleTask.TestUuid =
        .ok ⟨"ping", ["10.0.0.1", "10.0.0.1"], "-c 1"⟩ ∧
      finishesFirst (timerNs sampleTask.TimeLimit)
        (repeatedReadingsWorld.exec 0 "ping" "10.0.0.1" "-c 1") none = true ∧
      finishesFirst (timerNs sampleTask.TimeLimit)
        (repeatedReadingsWorld.exec 1 "ping" "10.0.0.1" "-c 1") none = true ∧
      (repeatedReadingsWorld.exec 0 "ping" "10.0.0.1" "-c 1").cmdOutput = "rtt=1ms" ∧
      sampleTask.Run repeatedReadingsWorld =
        .returned none
          { commands := [("ping", "10.0.0.1", "-c 1"), ("ping", "10.0.0.1", "-c 1")]
            kills := []
            resultSet := some ⟨[("10.0.0.1", "rtt=2ms")]⟩
            updateCalls := [("run-1", sampleEncode ⟨[("10.0.0.1", "rtt=2ms")]⟩)] } ∧
      (GoMap.mk [("10.0.0.1", "rtt=2ms")]).lookup "10.0.0.1" ≠ some "rtt=1ms" := by
  refine ⟨rfl, ?_, ?_, ?_, ?_, ?_⟩ <;> decide

/-- C4 (amended): when `Run` fetches a test run and returns nil, and every
invocation finished without error before the time limit, then no invocation
was killed and the persisted result set maps every target to the stdout of
an invocation run for that target: of the invocation whose worker completes
after every other worker of that target, so of its own invocation when the
target is listed once; and if every invocation printed "OK", every target
maps to "OK". -/
theorem all_success_outputs_persisted (w : World) (ett : ExecuteTestRunTask) (tr : TestRun)
    (eff : Effects)
    (hfetch : w.GetTestRun ett.TestUuid = .ok tr)
    (hrun : ett.Run w = .returned none eff)
    (hok : ∀ i t, tr.Targets[i]? = some t →
      finishesFirst (timerNs ett.TimeLimit) (w.exec i (testletPath w ett tr) t tr.Args) none =
        true) :
    eff.kills = [] ∧
      ∃ gd js, eff.resultSet = some gd ∧ w.Marshal gd = .ok js ∧
        eff.updateCalls = [(ett.TestUuid, js)] ∧
        (∀ t ∈ tr.Targets, ∃ i, tr.Targets[i]? = some t ∧
          gd.lookup t = some (w.exec i (testletPath w ett tr) t tr.Args).cmdOutput) ∧
        (∀ i t, tr.Targets[i]? = some t →
          (∀ j, tr.Targets[j]? = some t → j ≠ i → w.finishRank j < w.finishRank i) →
          gd.lookup t = some (w.exec i (testletPath w ett tr) t tr.Args).cmdOutput) ∧
        ((∀ i t, tr.Targets[i]? = some t →
            (w.exec i (testletPath w ett tr) t tr.Args).cmdOutput = "OK") →
          ∀ t ∈ tr.Targets, gd.lookup t = some "OK") := by
  obtain ⟨-, hnp, js, hj, -, heff⟩ := Run_returned_nil w ett tr eff hfetch hrun
  constructor
  · rw [heff]
    simp only [workerEffects, List.map_eq_nil_iff, List.filter_eq_nil_iff]
    intro e he
    rw [mem_workerEnds] at he
    rw [he.2, worker_success_noKill w ett _ tr e.1 e.2.1 (hok _ _ he.1)]
    simp
  · refine ⟨gatheredData w ett tr, js, by rw [heff]; rfl, hj, by rw [heff]; rfl, ?_, ?_, ?_⟩
    · intro t ht
      exact gatheredData_lookup w ett tr hnp t ht
    · intro i t hi hlate
      exact gatheredData_lookup_last w ett tr hnp i t hi hlate
    · intro hall t ht
      obtain ⟨i, hi, hl⟩ := gatheredData_lookup w ett tr hnp t ht
      rw [hl, hall i t hi]

/-- C4 (amended), on the run that lists "10.0.0.1" twice with the readings
"rtt=1ms" and "rtt=2ms": the second worker completes last and its reading is
the one persisted. -/
theorem all_success_outputs_persisted_witness :
    repeatedReadingsWorld.GetTestRun sampleTask.TestUuid =
        .ok ⟨"ping", ["10.0.0.1", "10.0.0.1"], "-c 1"⟩ ∧
      ([] : List Nat) = [] ∧
      ∃ gd js, some (GoMap.mk [("10.0.0.1", "rtt=2ms")]) = some gd ∧
        repeatedReadingsWorld.Marshal gd = .ok js ∧
        [("run-1", sampleEncode ⟨[("10.0.0.1", "rtt=2ms")]⟩)] = [(sampleTask.TestUuid, js)] ∧
        (∀ t ∈ ["10.0.0.1", "10.0.0.1"], ∃ i : Nat,
          ["10.0.0.1", "10.0.0.1"][i]? = some t ∧
          gd.lookup t = some (repeatedReadingsWorld.exec i "ping" t "-c 1").cmdOutput) ∧
        (∀ (i : Nat) (t : String), ["10.0.0.1", "10.0.0.1"][i]? = some t →
          (∀ j : Nat, ["10.0.0.1", "10.0.0.1"][j]? = some t → j ≠ i →
            repeatedReadingsWorld.finishRank j < repeatedReadingsWorld.finishRank i) →
          gd.lookup t = some (repeatedReadingsWorld.exec i "ping" t "-c 1").cmdOutput) ∧
        ((∀ (i : Nat) (t : String), ["10.0.0.1", "10.0.0.1"][i]? = some t →
            (repeatedReadingsWorld.exec i "ping" t "-c 1").cmdOutput = "OK") →
          ∀ t ∈ ["10.0.0.1", "10.0.0.1"], gd.lookup t = some "OK") :=
  ⟨rfl,
    all_success_outputs_persisted repeatedReadingsWorld sampleTask
      ⟨"ping", ["10.0.0.1", "10.0.0.1"], "-c 1"⟩
      { commands := [("ping", "10.0.0.1", "-c 1"), ("ping", "10.0.0.1", "-c 1")]
        kills := []
        resultSet := some ⟨[("10.0.0.1", "rtt=2ms")]⟩
        updateCalls := [("run-1", sampleEncode ⟨[("10.0.0.1", "rtt=2ms")]⟩)] }
      rfl (by decide)
      (fun i _ _ => by
        by_cases h : i = 0 <;>
          simp [repeatedReadingsWorld, sampleWorld, h, finishesFirst, exitsOk, Invocation.wait,
            sampleTask, timerNs, wrapInt64])⟩

/-- C5: the code at a run whose testlet cannot be started, with a time limit of
zero: the timer delivers at once, before the answer of `cmd.Wait()` is
ready, the `select` takes the timer case, and `cmd.Process.Kill()` on the
nil process panics. The run does not reach the barrier. -/
theorem launch_failure_at_zero_limit_panics :
    launchFailsWorld.GetTestRun zeroLimitTask.TestUuid = .ok ⟨"ping", ["10.0.0.1"], "-c 1"⟩ ∧
      testletMissing launchFailsWorld zeroLimitTask ⟨"ping", ["10.0.0.1"], "-c 1"⟩ = false ∧
      (launchFailsWorld.exec 0 "ping" "10.0.0.1" "-c 1").wait =
        some (1000, some "exec: not started") ∧
      (launchFailsWorld.exec 0 "ping" "10.0.0.1" "-c 1").processKill = none ∧
      timerNs zeroLimitTask.TimeLimit = 0 ∧
      worker launchFailsWorld zeroLimitTask "ping" ⟨"ping", ["10.0.0.1"], "-c 1"⟩ 0 "10.0.0.1" =
        .nilDeref ∧
      zeroLimitTask.Run launchFailsWorld = .panicked := by
  refine ⟨rfl, ?_, ?_, ?_, ?_, ?_, ?_⟩ <;> decide

/-- C6, as stated, fails: the testlet is not native and nothing is at its path,
but `os.Stat` fails there with ENOTDIR, of which `os.IsNotExist` does not
hold. `Run` goes on: a worker builds and starts the command, the result set
is written to the cache and `Run` returns nil. -/
theorem missing_testlet_behind_file_still_runs :
    notDirWorld.GetTestRun sampleTask.TestUuid = .ok ⟨"ping", ["10.0.0.1"], "-c 1"⟩ ∧
      (notDirWorld.IsNativeTestlet "ping").1 = false ∧
      notDirWorld.Stat (sampleTask.OptDir ++ "/assets/testlets/" ++ "ping") = some .notDir ∧
      noFileAt notDirWorld (sampleTask.OptDir ++ "/assets/testlets/" ++ "ping") = true ∧
      sampleTask.Run notDirWorld =
        .returned none
          { commands := [("/opt/todd/assets/testlets/ping", "10.0.0.1", "-c 1")]
            kills := []
            resultSet := some ⟨[("10.0.0.1", "")]⟩
            updateCalls := [("run-1", sampleEncode ⟨[("10.0.0.1", "")]⟩)] } := by
  refine ⟨rfl, ?_, ?_, ?_, ?_⟩ <;> decide

/-- C6 (amended): if the cache read fails, or the testlet is not native and
`os.Stat` of OptDir/assets/testlets/(testlet) fails with an error of which
`os.IsNotExist` holds, then `Run` returns an error, no worker builds or
starts a command, and `UpdateTestRunData` is not called. -/
theorem fatal_lookup_launches_nothing (w : World) (ett : ExecuteTestRunTask)
    (h : (∃ e, w.GetTestRun ett.TestUuid = .error e) ∨
      ∃ tr, w.GetTestRun ett.TestUuid = .ok tr ∧ (w.IsNativeTestlet tr.Testlet).1 = false ∧
        w.Stat (ett.OptDir ++ "/assets/testlets/" ++ tr.Testlet) = some .notExist) :
    ∃ msg, ett.Run w =
      .returned (some msg) { commands := [], kills := [], resultSet := none, updateCalls := [] } := by
  rcases h with ⟨e, he⟩ | ⟨tr, hfetch, hnat, hstat⟩
  · exact ⟨"Problem retrieving testrun from agent cache",
      by simp [ExecuteTestRunTask.Run, he, Effects.none]⟩
  · have hmiss : testletMissing w ett tr = true := by
      simp [testletMissing, testletPath, hnat, hstat]
    exact ⟨"Error executing testrun - testlet doesn't exist on this agent.",
      by simp [ExecuteTestRunTask.Run, hfetch, hmiss, Effects.none]⟩

/-- C6 (amended), on a cache without the run and on an agent without the
testlet file. -/
theorem fatal_lookup_launches_nothing_witness :
    (∃ msg, sampleTask.Run noRunWorld =
      .returned (some msg)
        { commands := [], kills := [], resultSet := none, updateCalls := [] }) ∧
    (noAssetWorld.Stat ("/opt/todd" ++ "/assets/testlets/" ++ "ping") = some .notExist ∧
      ∃ msg, sampleTask.Run noAssetWorld =
        .returned (some msg)
          { commands := [], kills := [], resultSet := none, updateCalls := [] }) :=
  ⟨fatal_lookup_launches_nothing noRunWorld sampleTask (Or.inl ⟨"testrun not found", rfl⟩),
    rfl,
    fatal_lookup_launches_nothing noAssetWorld sampleTask
      (Or.inr ⟨⟨"ping", ["10.0.0.1", "10.0.0.2"], "-c 1"⟩, rfl, rfl, rfl⟩)⟩

/-- C7, as stated, fails: both workers succeed, the cache write fails, and
`Run` does not return an error to its caller: the process is ended with
exit status 1. -/
theorem persist_failure_ends_process :
    persistFailsWorld.UpdateTestRunData "run-1"
        (sampleEncode ⟨[("10.0.0.1", "OK"), ("10.0.0.2", "OK")]⟩) = some "cache write failed" ∧
      sampleTask.Run persistFailsWorld =
        .exited 1
          { commands := [("ping", "10.0.0.1", "-c 1"), ("ping", "10.0.0.2", "-c 1")]
            kills := []
            resultSet := some ⟨[("10.0.0.1", "OK"), ("10.0.0.2", "OK")]⟩
            updateCalls :=
              [("run-1", sampleEncode ⟨[("10.0.0.1", "OK"), ("10.0.0.2", "OK")]⟩)] } ∧
      ¬ ∃ msg eff, sampleTask.Run persistFailsWorld = .returned (some msg) eff := by
  refine ⟨rfl, by decide, ?_⟩
  rintro ⟨msg, eff, h⟩
  have h2 : sampleTask.Run persistFailsWorld =
      .exited 1
        { commands := [("ping", "10.0.0.1", "-c 1"), ("ping", "10.0.0.2", "-c 1")]
          kills := []
          resultSet := some ⟨[("10.0.0.1", "OK"), ("10.0.0.2", "OK")]⟩
          updateCalls :=
            [("run-1", sampleEncode ⟨[("10.0.0.1", "OK"), ("10.0.0.2", "OK")]⟩)] } := by
    decide
  rw [h2] at h
  cases h

/-- C7 (amended): past the barrier, if encoding the result set fails or the
cache write fails, `Run` does not return to its caller: it ends the process
with exit status 1. -/
theorem encode_or_persist_failure_exits (w : World) (ett : ExecuteTestRunTask) (tr : TestRun)
    (hfetch : w.GetTestRun ett.TestUuid = .ok tr)
    (hpresent : testletMissing w ett tr = false)
    (hnp : anyPanic w ett tr = false)
    (hfail : (∃ e, w.Marshal (gatheredData w ett tr) = .error e) ∨
      ∃ js e, w.Marshal (gatheredData w ett tr) = .ok js ∧
        w.UpdateTestRunData ett.TestUuid js = some e) :
    ∃ eff, ett.Run w = .exited 1 eff ∧ eff.resultSet = some (gatheredData w ett tr) := by
  rw [Run_past_barrier w ett tr hfetch hpresent hnp]
  rcases hfail with ⟨e, he⟩ | ⟨js, e, hj, hu⟩
  · exact ⟨workerEffects w ett tr [], by simp only [he], rfl⟩
  · exact ⟨workerEffects w ett tr [(ett.TestUuid, js)], by simp only [hj, hu], rfl⟩

/-- C7 (amended), on the run whose cache write fails. -/
theorem encode_or_persist_failure_exits_witness :
    persistFailsWorld.GetTestRun sampleTask.TestUuid =
        .ok ⟨"ping", ["10.0.0.1", "10.0.0.2"], "-c 1"⟩ ∧
      ∃ eff, sampleTask.Run persistFailsWorld = .exited 1 eff ∧
        eff.resultSet =
          some (gatheredData persistFailsWorld sampleTask
            ⟨"ping", ["10.0.0.1", "10.0.0.2"], "-c 1"⟩) :=
  ⟨rfl, encode_or_persist_failure_exits persistFailsWorld sampleTask
    ⟨"ping", ["10.0.0.1", "10.0.0.2"], "-c 1"⟩ rfl (by decide) (by decide)
    (Or.inr ⟨sampleEncode ⟨[("10.0.0.1", "OK"), ("10.0.0.2", "OK")]⟩, "cache write failed",
      congrArg Except.ok (by decide), rfl⟩)⟩

/-- C10, as stated, fails: the worker whose testlet outlives the time limit
does assign to `gatheredData`, and after the barrier the result set has an
entry under its target. -/
theorem timed_out_worker_leaves_entry :
    elapsesFirst (timerNs sampleTask.TimeLimit) (mixedWorld.exec 1 "ping" "10.0.0.2" "-c 1") =
        true ∧
      (worker mixedWorld sampleTask "ping" ⟨"ping", ["10.0.0.1", "10.0.0.2"], "-c 1"⟩ 1
          "10.0.0.2").writes = [("10.0.0.2", "PING 10.0.0.2")] ∧
      (sampleTask.Run mixedWorld).resultSet =
        some ⟨[("10.0.0.1", "OK"), ("10.0.0.2", "PING 10.0.0.2")]⟩ ∧
      (GoMap.mk [("10.0.0.1", "OK"), ("10.0.0.2", "PING 10.0.0.2")]).lookup "10.0.0.2" ≠
        none := by
  refine ⟨?_, ?_, ?_, ?_⟩ <;> decide

/-- C10 (amended): in a run that passes the barrier, a worker whose time limit
elapses before its invocation finishes calls `Kill` and then performs the
record step: its one assignment puts the stdout captured so far under its
target, and after the barrier the result set has an entry under that
key. -/
theorem timed_out_worker_records_capture (w : World) (ett : ExecuteTestRunTask)
    (tr : TestRun) (gd : GoMap String) (i : Nat) (T : String)
    (hfetch : w.GetTestRun ett.TestUuid = .ok tr)
    (hbarrier : (ett.Run w).resultSet = some gd)
    (hi : tr.Targets[i]? = some T)
    (hslow :
      elapsesFirst (timerNs ett.TimeLimit) (w.exec i (testletPath w ett tr) T tr.Args) = true) :
    worker w ett (testletPath w ett tr) tr i T =
        .finished true [(T, (w.exec i (testletPath w ett tr) T tr.Args).cmdOutput)] ∧
      (gd.lookup T).isSome = true := by
  obtain ⟨-, hnp, rfl⟩ := Run_resultSet w ett tr gd hfetch hbarrier
  refine ⟨worker_timeLimit w ett _ tr i T hslow (noPanic_worker hnp hi), ?_⟩
  rw [GoMap.lookup_isSome_iff]
  exact gatheredData_keys_sup w ett tr hnp T (List.getElem?_mem hi)

/-- C10 (amended), on the second worker of the mixed run. -/
theorem timed_out_worker_records_capture_witness :
    (sampleTask.Run mixedWorld).resultSet =
        some ⟨[("10.0.0.1", "OK"), ("10.0.0.2", "PING 10.0.0.2")]⟩ ∧
      worker mixedWorld sampleTask "ping" ⟨"ping", ["10.0.0.1", "10.0.0.2"], "-c 1"⟩ 1
          "10.0.0.2" = .finished true [("10.0.0.2", "PING 10.0.0.2")] ∧
      ((GoMap.mk [("10.0.0.1", "OK"), ("10.0.0.2", "PING 10.0.0.2")]).lookup
        "10.0.0.2").isSome = true :=
  ⟨by decide,
    timed_out_worker_records_capture mixedWorld sampleTask
      ⟨"ping", ["10.0.0.1", "10.0.0.2"], "-c 1"⟩
      ⟨[("10.0.0.1", "OK"), ("10.0.0.2", "PING 10.0.0.2")]⟩ 1 "10.0.0.2" rfl (by decide) rfl
      (by decide)⟩


/-! ## The claims about `DownloadAsset` -/

/-- C8: the code at a testlet URL answered with 404 while a file already sits
at the download path. `downloadAsset` returns the bad-status error, yet the
file was opened with create-and-truncate before the request went out: its
old content is gone, so the disk is not as it was before the call. On an
empty disk the same call leaves an empty file behind. -/
theorem non200_truncates_existing_file :
    Contains "http://srv/testlets/ping" "testlets" = true ∧
      sampleNet.Get "http://srv/testlets/ping" = .response 404 "404 Not Found" "not found" none ∧
      sampleNet.Join "/opt/todd/assets/testlets" (Base "http://srv/testlets/ping") =
        "/opt/todd/assets/testlets/ping" ∧
      sampleHost.files.lookup "/opt/todd/assets/testlets/ping" = some ⟨"old binary", 0o744⟩ ∧
      DownloadAsset.downloadAsset sampleNet "http://srv/testlets/ping"
          "/opt/todd/assets/testlets" sampleHost =
        (some (.badStatus "404 Not Found"),
          { files := ⟨[("/opt/todd/assets/testlets/ping", ⟨"", 0o744⟩)]⟩
            requests := ["http://srv/testlets/ping"] }) ∧
      (DownloadAsset.downloadAsset sampleNet "http://srv/testlets/ping"
          "/opt/todd/assets/testlets" sampleHost).2.files ≠ sampleHost.files ∧
      DownloadAsset.downloadAsset sampleNet "http://srv/testlets/ping"
          "/opt/todd/assets/testlets" { files := GoMap.empty, requests := [] } =
        (some (.badStatus "404 Not Found"),
          { files := ⟨[("/opt/todd/assets/testlets/ping", ⟨"", 0o744⟩)]⟩
            requests := ["http://srv/testlets/ping"] }) := by
  refine ⟨?_, ?_, ?_, ?_, ?_, ?_, ?_⟩ <;> decide

/-- C9: when the URLs before it have been downloaded without error and `Run`
reaches a URL that contains neither "factcollectors" nor "testlets", `Run`
returns the invalid-asset-URL error and leaves files and sent requests as
they were on reaching that URL: no request and no file for it, and nothing
at all for the URLs after it. -/
theorem invalid_url_stops_batch (n : Net) (OptDir : String) (pre post : List String)
    (url : String) (s s' : Host)
    (hpre : (DownloadAsset.mk pre).Run n OptDir s = (none, s'))
    (hfact : Contains url "factcollectors" = false)
    (htest : Contains url "testlets" = false) :
    (DownloadAsset.mk (pre ++ url :: post)).Run n OptDir s = (some .invalidURL, s') := by
  unfold DownloadAsset.Run at hpre ⊢
  simp only at hpre ⊢
  rw [loop_append n _ pre (url :: post) s s' hpre]
  simp [DownloadAsset.loop, hfact, htest]

/-- C9, on a batch whose second URL is of neither kind. -/
theorem invalid_url_stops_batch_witness :
    (DownloadAsset.mk ["http://srv/factcollectors/get_hostname"]).Run sampleNet "/opt/todd"
        sampleHost =
      (none,
        { files := ⟨[("/opt/todd/assets/testlets/ping", ⟨"old binary", 0o744⟩),
            ("/opt/todd/assets/factcollectors/get_hostname", ⟨"#!/bin/sh", 0o744⟩)]⟩
          requests := ["http://srv/factcollectors/get_hostname"] }) ∧
      Contains "http://srv/other/tool" "factcollectors" = false ∧
      Contains "http://srv/other/tool" "testlets" = false ∧
      (DownloadAsset.mk (["http://srv/factcollectors/get_hostname"] ++
          "http://srv/other/tool" :: ["http://srv/testlets/iperf"])).Run sampleNet "/opt/todd"
          sampleHost =
        (some .invalidURL,
          { files := ⟨[("/opt/todd/assets/testlets/ping", ⟨"old binary", 0o744⟩),
              ("/opt/todd/assets/factcollectors/get_hostname", ⟨"#!/bin/sh", 0o744⟩)]⟩
            requests := ["http://srv/factcollectors/get_hostname"] }) :=
  ⟨by decide, by decide, by decide,
    invalid_url_stops_batch sampleNet "/opt/todd" ["http://srv/factcollectors/get_hostname"]
      ["http://srv/testlets/iperf"] "http://srv/other/tool" sampleHost _ (by decide)
      (by decide) (by decide)⟩

end Todd
